import Mathlib

/-!
Verification of the kira real-time audio engine core against its
natural-language specification.

The embedding uses exact rationals (`ℚ`) in place of the `f32`/`f64`
machine floats of the source; the claims under study concern the
structure of the computations (which frames are read, how state
machines evolve, which factors scale which channels), not floating
point rounding.  Transcendental functions that the source uses
(`10^(db/20)`, `sqrt`, easing curves) are passed in as explicit
function parameters, so every theorem holds for all interpretations
of those functions.
-/

namespace Kira

/-- A stereo audio sample: pair (left, right), from `Frame` in `dsp/frame.rs`
(spec §3: "pair (left, right) of 32-bit floats; addition, scalar
multiplication"). -/
structure Frame where
  left : ℚ
  right : ℚ
  deriving DecidableEq, Repr

namespace Frame

/-- The zero (silent) frame, `Frame::ZERO`. -/
def ZERO : Frame := ⟨0, 0⟩

instance : Add Frame where
  add a b := ⟨a.left + b.left, a.right + b.right⟩

/-- Scalar multiplication `Frame * f32` from the source's `Mul<f32> for Frame`. -/
instance : HMul Frame ℚ Frame where
  hMul f s := ⟨f.left * s, f.right * s⟩

/-- Construct a frame with the same value in both channels (`Frame::from_mono`). -/
def from_mono (v : ℚ) : Frame := ⟨v, v⟩

theorem add_def (a b : Frame) : a + b = ⟨a.left + b.left, a.right + b.right⟩ := rfl

theorem mul_def (a : Frame) (s : ℚ) : a * s = ⟨a.left * s, a.right * s⟩ := rfl

theorem zero_add_frame (a : Frame) : ZERO + a = a := by
  cases a; simp [ZERO, add_def]

theorem add_assoc_frame (a b c : Frame) : a + b + c = a + (b + c) := by
  cases a; cases b; cases c; simp [add_def]; constructor <;> ring

theorem mul_one_frame (a : Frame) : a * (1 : ℚ) = a := by
  cases a; simp [mul_def]

end Frame

/-- Volume: tagged union of a raw amplitude or a decibel value
(`Volume` in `volume.rs`; spec §3). -/
inductive Volume where
  | amplitude (value : ℚ)
  | decibels (value : ℚ)
  deriving DecidableEq

namespace Volume

/-- `Volume::MIN_DECIBELS`: decibel values at or below this are treated
as silence (spec §3: "MIN_DECIBELS ≈ −60 treated as silence"). -/
def MIN_DECIBELS : ℚ := -60

/-- Conversion to amplitude, `Volume::as_amplitude`.  The transcendental
`dB → amplitude` map `10^(db/20)` is the parameter `dbToAmp`;
`MIN_DECIBELS` maps to silence. -/
def as_amplitude (dbToAmp : ℚ → ℚ) : Volume → ℚ
  | amplitude v => v
  | decibels db => if db ≤ MIN_DECIBELS then 0 else dbToAmp db

/-- Modelled from the spec: the decibel value of a volume
(`volume.rs` is missing from src/).  The transcendental
`amplitude → dB` map is the parameter `ampToDb`. -/
def toDb (ampToDb : ℚ → ℚ) : Volume → ℚ
  | amplitude v => ampToDb v
  | decibels db => db

/-- Modelled from the spec: `Tweenable::lerp` for `Volume`
(`volume.rs` is missing from src/).  Spec §3: "Linear interpolation
occurs in decibel space"; two raw amplitudes interpolate as amplitudes. -/
def lerp (ampToDb : ℚ → ℚ) (a b : Volume) (t : ℚ) : Volume :=
  match a, b with
  | amplitude x, amplitude y => amplitude (x + (y - x) * t)
  | a, b =>
    decibels (a.toDb ampToDb + (b.toDb ampToDb - a.toDb ampToDb) * t)

end Volume

/-- A point in time of a clock: which clock, and how many ticks have
elapsed (`ClockTime` in `clock.rs`; spec glossary).  Clock ids are
modelled as naturals. -/
structure ClockTime where
  clock : Nat
  ticks : Nat
  deriving DecidableEq

/-- When an animation or sound begins (`StartTime` in `start_time.rs`;
spec §3). -/
inductive StartTime where
  | immediate
  | delayed (time : ℚ)
  | clockTime (time : ClockTime)
  deriving DecidableEq

/-- An animation descriptor: duration, easing curve, start condition
(`Tween` in `tween.rs`; spec §3).  The easing curve is carried as a
function `ℚ → ℚ`. -/
structure Tween where
  startTime : StartTime
  duration : ℚ
  easing : ℚ → ℚ

/-- The linear tween with zero duration, used by tests as
`Tween { duration: Duration::ZERO, ..Default::default() }`. -/
def Tween.zero : Tween := ⟨StartTime.immediate, 0, fun t => t⟩

/-- Modelled from the spec: the phase of a `Tweener` (`tween.rs` is
missing from src/).  Spec §3/§4.3: a tweener holds a current value and
an optional active animation; clock-gated and delayed tweens are held
pending until their start condition is met. -/
inductive TweenerPhase (α : Type) where
  | idle
  | waitingOnClock (target : α) (tween : Tween) (clockTarget : ClockTime)
  | waitingDelay (target : α) (tween : Tween) (remaining : ℚ)
  | animating (source : α) (target : α) (elapsed : ℚ) (tween : Tween)

/-- Modelled from the spec: `Tweener<T>` (`tween.rs` is missing from
src/): an animated value with a current value and an optional pending
or active animation (spec §3, §4.3). -/
structure Tweener (α : Type) where
  value : α
  phase : TweenerPhase α

namespace Tweener

/-- A tweener resting at a value, from `Tweener::new`. -/
def new {α : Type} (value : α) : Tweener α := ⟨value, TweenerPhase.idle⟩

/-- Modelled from the spec: `Tweener::set` (spec §4.3): an Immediate
tween begins interpolating this frame from the current value (so a new
target set while animating uses the current interpolated value as the
new source); Delayed and ClockTime tweens are held pending. -/
def set {α : Type} (tw : Tweener α) (target : α) (tween : Tween) : Tweener α :=
  match tween.startTime with
  | StartTime.immediate =>
    ⟨tw.value, TweenerPhase.animating tw.value target 0 tween⟩
  | StartTime.delayed s =>
    ⟨tw.value, TweenerPhase.waitingDelay target tween s⟩
  | StartTime.clockTime ct =>
    ⟨tw.value, TweenerPhase.waitingOnClock target tween ct⟩

/-- Modelled from the spec: `Tweener::update` (spec §4.3): advance the
animation by `dt`; the progress `elapsed/duration` is clamped to 1 and
fed through the easing curve; on reaching 1 the tweener settles on the
target.  A pending delayed animation counts down; a clock-gated one
holds.  `lerpFn` is the `Tweenable::lerp` of the value type. -/
def update {α : Type} (lerpFn : α → α → ℚ → α) (tw : Tweener α) (dt : ℚ) :
    Tweener α :=
  match tw.phase with
  | TweenerPhase.idle => tw
  | TweenerPhase.waitingOnClock _ _ _ => tw
  | TweenerPhase.waitingDelay target tween remaining =>
    if remaining - dt ≤ 0 then
      ⟨tw.value, TweenerPhase.animating tw.value target 0 tween⟩
    else
      ⟨tw.value, TweenerPhase.waitingDelay target tween (remaining - dt)⟩
  | TweenerPhase.animating source target elapsed tween =>
    if tween.duration ≤ elapsed + dt then
      ⟨target, TweenerPhase.idle⟩
    else
      ⟨lerpFn source target (tween.easing ((elapsed + dt) / tween.duration)),
        TweenerPhase.animating source target (elapsed + dt) tween⟩

/-- Modelled from the spec: `Tweener::on_clock_tick` (spec §4.3): a
clock-gated animation activates on the first observed tick of the
referenced clock whose count reaches the target. -/
def on_clock_tick {α : Type} (tw : Tweener α) (time : ClockTime) : Tweener α :=
  match tw.phase with
  | TweenerPhase.waitingOnClock target tween ct =>
    if time.clock = ct.clock ∧ ct.ticks ≤ time.ticks then
      ⟨tw.value, TweenerPhase.animating tw.value target 0 tween⟩
    else tw
  | _ => tw

end Tweener

/-- A unique identifier for a mixer track (`TrackId` in `track.rs`);
sub-track arena keys are modelled as naturals. -/
inductive TrackId where
  | main
  | sub (id : Nat)
  deriving DecidableEq

/-- An effect in a track's effect chain (`Box<dyn Effect>` in
`track.rs`).  Effects are stateful per-sample transforms (spec §4.8);
the state type is the parameter `σ` and `step` is the effect's
`process(input, dt)` returning the new state and the output frame. -/
structure Effect (σ : Type) where
  state : σ
  step : σ → Frame → ℚ → σ × Frame

/-- One `Effect::process` call: run the transform, keep the new state. -/
def Effect.process {σ : Type} (e : Effect σ) (input : Frame) (dt : ℚ) :
    Effect σ × Frame :=
  let r := e.step e.state input dt
  (⟨r.1, e.step⟩, r.2)

/-- A mixer track, from `Track` in `track.rs`: a volume tweener, an
ordered route list `(TrackId, Tweener<Volume>)`, an ordered effect
chain and an input accumulator frame. -/
structure Track (σ : Type) where
  volume : Tweener Volume
  routes : List (TrackId × Tweener Volume)
  effects : List (Effect σ)
  input : Frame

namespace Track

/-- `Track::set_volume`. -/
def set_volume {σ : Type} (t : Track σ) (volume : Volume) (tween : Tween) :
    Track σ :=
  { t with volume := t.volume.set volume tween }

/-- The `find_map` + `set` body of `Track::set_route`: update the first
route whose id is `to`, leaving everything else unchanged. -/
def setFirstRoute (dest : TrackId) (volume : Volume) (tween : Tween) :
    List (TrackId × Tweener Volume) → List (TrackId × Tweener Volume)
  | [] => []
  | (id, r) :: rest =>
    if id = dest then (id, r.set volume tween) :: rest
    else (id, r) :: setFirstRoute dest volume tween rest

/-- `Track::set_route`: linear search for the first route with id `to`
and set its volume tweener; if not found, nothing happens. -/
def set_route {σ : Type} (t : Track σ) (dest : TrackId) (volume : Volume)
    (tween : Tween) : Track σ :=
  { t with routes := setFirstRoute dest volume tween t.routes }

/-- `Track::add_input`: `self.input += input`. -/
def add_input {σ : Type} (t : Track σ) (input : Frame) : Track σ :=
  { t with input := t.input + input }

/-- `Track::process`, translated statement by statement from
`track.rs`: update the volume tweener by `dt`; update each route's
volume tweener by `dt`; `mem::replace` the input accumulator with the
zero frame; fold the taken frame through the effect chain; multiply by
the (updated) volume's amplitude.  `ampToDb`/`dbToAmp` are the
decibel conversion functions used by `Tweenable::lerp` for `Volume`
and `Volume::as_amplitude`. -/
def process {σ : Type} (ampToDb dbToAmp : ℚ → ℚ) (t : Track σ) (dt : ℚ) :
    Track σ × Frame :=
  let volume := t.volume.update (Volume.lerp ampToDb) dt
  let routes :=
    t.routes.map fun r => (r.1, r.2.update (Volume.lerp ampToDb) dt)
  let folded :=
    t.effects.foldl
      (fun (acc : List (Effect σ) × Frame) e =>
        let r := e.process acc.2 dt
        (acc.1 ++ [r.1], r.2))
      ([], t.input)
  (⟨volume, routes, folded.1, Frame.ZERO⟩,
    folded.2 * (volume.value.as_amplitude dbToAmp))

/-- Modelled from the spec (§4.7, "Track process: ... fold through the
effect chain"): running a frame through an effect chain in sequence
order, returning the stepped effects and the final frame. -/
def effectChain {σ : Type} (dt : ℚ) :
    List (Effect σ) → Frame → List (Effect σ) × Frame
  | [], f => ([], f)
  | e :: es, f =>
    let r := e.process f dt
    let rest := effectChain dt es r.2
    (r.1 :: rest.1, rest.2)

end Track

/-! ## Static sound data (`sound/static_sound/data.rs`) -/

/-- Sample storage for a static sound, from `Samples` in
`sound/static_sound/data.rs`: tagged union of i16 mono, i16 stereo,
f32 mono and `Frame` stereo sequences. -/
inductive Samples where
  | i16Mono (samples : List ℤ)
  | i16Stereo (samples : List (ℤ × ℤ))
  | f32Mono (samples : List ℚ)
  | frame (samples : List Frame)
  deriving DecidableEq

namespace Samples

/-- The conversion `sample as f32 / i16::MAX as f32` used throughout
`data.rs`. -/
def i16ToF32 (s : ℤ) : ℚ := (s : ℚ) / 32767

/-- `Samples::len`: the number of sample frames. -/
def len : Samples → Nat
  | i16Mono samples => samples.length
  | i16Stereo samples => samples.length
  | f32Mono samples => samples.length
  | frame samples => samples.length

/-- `Samples::is_empty`. -/
def is_empty (s : Samples) : Bool := s.len == 0

/-- `Samples::ensure_32_bit`: promote i16 variants to 32-bit ones,
dividing each sample by `i16::MAX`. -/
def ensure_32_bit : Samples → Samples
  | i16Mono samples => f32Mono (samples.map fun s => i16ToF32 s)
  | i16Stereo samples =>
    frame (samples.map fun (s : ℤ × ℤ) => Frame.mk (i16ToF32 s.1) (i16ToF32 s.2))
  | s => s

/-- `Samples::ensure_stereo`: promote mono variants to stereo ones by
duplicating each sample into both channels. -/
def ensure_stereo : Samples → Samples
  | i16Mono samples => i16Stereo (samples.map fun s => (s, s))
  | f32Mono samples => frame (samples.map fun s => Frame.from_mono s)
  | s => s

/-- Appending `k` zero-valued sample frames to the storage, in the
matching variant.  Used to express that reads past the end of the data
behave as if the data were zero-padded. -/
def pad (k : Nat) : Samples → Samples
  | i16Mono samples => i16Mono (samples ++ List.replicate k 0)
  | i16Stereo samples => i16Stereo (samples ++ List.replicate k (0, 0))
  | f32Mono samples => f32Mono (samples ++ List.replicate k 0)
  | frame samples => frame (samples ++ List.replicate k Frame.ZERO)

end Samples

/-- Truncation of a rational toward zero, the semantics of Rust's
`f64 as usize` cast (saturating at 0 for negative values) composed with
`Int.toNat`. -/
def rustTrunc (q : ℚ) : ℤ := if 0 ≤ q then ⌊q⌋ else ⌈q⌉

/-- Rust's `x % 1.0`: the remainder after truncation toward zero. -/
def rustRemOne (q : ℚ) : ℚ := q - rustTrunc q

/-- Modelled from the spec: `interpolate_frame` (`dsp/mod.rs` is
missing from src/); spec §3/§4.5 calls for cubic interpolation over a
4-sample window.  A 4-point cubic (Catmull-Rom) polynomial per
channel. -/
def cubicChannel (p c n1 n2 t : ℚ) : ℚ :=
  c + (t * ((n1 - p) + t * ((2 * p - 5 * c + 4 * n1 - n2)
    + t * (3 * (c - n1) + n2 - p)))) / 2

/-- Modelled from the spec: cubic interpolation of four consecutive
frames at a fractional position (`dsp/mod.rs` is missing from src/). -/
def interpolate_frame (previous current next1 next2 : Frame) (fraction : ℚ) :
    Frame :=
  ⟨cubicChannel previous.left current.left next1.left next2.left fraction,
    cubicChannel previous.right current.right next1.right next2.right fraction⟩

/-- A piece of audio loaded into memory, from `StaticSoundData` in
`sound/static_sound/data.rs`: a sample rate and shared immutable
samples.  (The `settings` field does not participate in
`frame_at_index`/`frame_at_position` and is not carried here.) -/
structure StaticSoundData where
  sample_rate : Nat
  samples : Samples

namespace StaticSoundData

/-- `StaticSoundData::duration` in seconds. -/
def duration (d : StaticSoundData) : ℚ := (d.samples.len : ℚ) / d.sample_rate

/-- `StaticSoundData::frame_at_index`: fetch the sample at `index`,
promoted to a `Frame`; out-of-range indices yield the zero frame
(`.get(index) ... .unwrap_or(Frame::ZERO)`). -/
def frame_at_index (d : StaticSoundData) (index : Nat) : Frame :=
  (match d.samples with
    | Samples.i16Mono samples =>
      (samples.get? index).map fun s => Frame.from_mono (Samples.i16ToF32 s)
    | Samples.i16Stereo samples =>
      (samples.get? index).map fun (s : ℤ × ℤ) =>
        Frame.mk (Samples.i16ToF32 s.1) (Samples.i16ToF32 s.2)
    | Samples.f32Mono samples =>
      (samples.get? index).map fun s => Frame.from_mono s
    | Samples.frame samples => samples.get? index).getD Frame.ZERO

/-- `StaticSoundData::frame_at_position`: cubic interpolation around
the sample position `sample_rate * position`, substituting the zero
frame for the window sample before index 0. -/
def frame_at_position (d : StaticSoundData) (position : ℚ) : Frame :=
  let sample_position : ℚ := (d.sample_rate : ℚ) * position
  let fraction : ℚ := rustRemOne sample_position
  let current_sample_index : Nat := (rustTrunc sample_position).toNat
  let previous :=
    if current_sample_index = 0 then Frame.ZERO
    else d.frame_at_index (current_sample_index - 1)
  let current := d.frame_at_index current_sample_index
  let next_1 := d.frame_at_index (current_sample_index + 1)
  let next_2 := d.frame_at_index (current_sample_index + 2)
  interpolate_frame previous current next_1 next_2 fraction

end StaticSoundData

/-! ## Spatial scene (`spatial/listener.rs`) -/

/-- A 3-vector, from `Vec3` in `math/vec3.rs` (spec §3: vector math). -/
structure Vec3 where
  x : ℚ
  y : ℚ
  z : ℚ
  deriving DecidableEq

namespace Vec3

instance : Add Vec3 where
  add a b := ⟨a.x + b.x, a.y + b.y, a.z + b.z⟩

instance : Sub Vec3 where
  sub a b := ⟨a.x - b.x, a.y - b.y, a.z - b.z⟩

/-- Scalar multiplication `Vec3 * f32`. -/
instance : HMul Vec3 ℚ Vec3 where
  hMul v s := ⟨v.x * s, v.y * s, v.z * s⟩

/-- `Vec3::LEFT`: the unit vector pointing left. -/
def LEFT : Vec3 := ⟨-1, 0, 0⟩

/-- `Vec3::RIGHT`: the unit vector pointing right. -/
def RIGHT : Vec3 := ⟨1, 0, 0⟩

/-- `Vec3::dot`. -/
def dot (a b : Vec3) : ℚ := a.x * b.x + a.y * b.y + a.z * b.z

/-- `Vec3::magnitude`: the euclidean length.  The square root is the
explicit function parameter `sqrtQ`. -/
def magnitude (sqrtQ : ℚ → ℚ) (v : Vec3) : ℚ := sqrtQ (v.dot v)

/-- `Vec3::normalized`: the vector scaled by the reciprocal of its
magnitude. -/
def normalized (sqrtQ : ℚ → ℚ) (v : Vec3) : Vec3 :=
  v * (1 / v.magnitude sqrtQ)

end Vec3

/-- A rotation, from `Quaternion` in `math/quaternion.rs`. -/
structure Quaternion where
  w : ℚ
  x : ℚ
  y : ℚ
  z : ℚ
  deriving DecidableEq

namespace Quaternion

/-- Modelled from the spec: `Quaternion::rotate_point`
(`math/quaternion.rs` is missing from src/): rotation of a point by a
unit quaternion, `v + 2·q_v × (q_v × v + w·v)`. -/
def rotate_point (q : Quaternion) (v : Vec3) : Vec3 :=
  let qv : Vec3 := ⟨q.x, q.y, q.z⟩
  let cross : Vec3 → Vec3 → Vec3 := fun a b =>
    ⟨a.y * b.z - a.z * b.y, a.z * b.x - a.x * b.z, a.x * b.y - a.y * b.x⟩
  let t := cross qv (cross qv v + v * q.w)
  v + t * (2 : ℚ)

end Quaternion

/-- Modelled from the spec: the min/max attenuation distances of an
emitter (`spatial/emitter.rs` is missing from src/; spec §3). -/
structure EmitterDistances where
  minDistance : ℚ
  maxDistance : ℚ

/-- Modelled from the spec: `EmitterDistances::relative_distance`
(spec §4.9: `r = clamp((d − dmin)/(dmax − dmin), 0, 1)`). -/
def EmitterDistances.relative_distance (er : EmitterDistances) (distance : ℚ) :
    ℚ :=
  min 1 (max 0 ((distance - er.minDistance) / (er.maxDistance - er.minDistance)))

/-- Modelled from the spec: an `Emitter` as seen by
`Listener::process` (`spatial/emitter.rs` is missing from src/):
position, accumulated output frame, optional attenuation curve (carried
as a function, the `Easing::apply` of the source), attenuation
distances and the spatialization flag (spec §3, §4.9). -/
structure Emitter where
  position : Vec3
  outputFrame : Frame
  attenuation_function : Option (ℚ → ℚ)
  distances : EmitterDistances
  enable_spatialization : Bool

/-- `Emitter::output`. -/
def Emitter.output (e : Emitter) : Frame := e.outputFrame

/-- A spatial listener, from `Listener` in `spatial/listener.rs`:
position, orientation and target track. -/
structure Listener where
  position : Vec3
  orientationQ : Quaternion
  track : TrackId

namespace Listener

/-- `EAR_DISTANCE` from `spatial/listener.rs`. -/
def EAR_DISTANCE : ℚ := 1 / 10

/-- `Listener::ear_positions`: the listener's position offset by its
orientation applied to `LEFT`/`RIGHT` scaled by `EAR_DISTANCE`. -/
def ear_positions (l : Listener) : Vec3 × Vec3 :=
  (l.position + l.orientationQ.rotate_point (Vec3.LEFT * EAR_DISTANCE),
    l.position + l.orientationQ.rotate_point (Vec3.RIGHT * EAR_DISTANCE))

/-- `Listener::process`, translated statement by statement from
`spatial/listener.rs`: for each emitter, take its output frame,
attenuate it by the lerp-in-decibels amplitude of the attenuation
curve when one is set, apply the per-ear spatialization gains when
enabled, and accumulate into the output frame.  `sqrtQ`, `ampToDb`
and `dbToAmp` are the square root and decibel conversion functions. -/
def process (sqrtQ ampToDb dbToAmp : ℚ → ℚ) (l : Listener)
    (emitters : List Emitter) : Frame :=
  emitters.foldl
    (fun output emitter =>
      let eo0 := emitter.output
      let eo1 :=
        match emitter.attenuation_function with
        | some att =>
          let distance := (emitter.position - l.position).magnitude sqrtQ
          let relative_distance := emitter.distances.relative_distance distance
          let relative_volume := att (1 - relative_distance)
          let amplitude :=
            (Volume.lerp ampToDb (Volume.decibels Volume.MIN_DECIBELS)
              (Volume.decibels 0) relative_volume).as_amplitude dbToAmp
          eo0 * amplitude
        | none => eo0
      let eo2 :=
        if emitter.enable_spatialization then
          let earPos := l.ear_positions
          let left_ear_direction := l.orientationQ.rotate_point Vec3.LEFT
          let right_ear_direction := l.orientationQ.rotate_point Vec3.RIGHT
          let emitter_direction_left :=
            (emitter.position - earPos.1).normalized sqrtQ
          let emitter_direction_right :=
            (emitter.position - earPos.2).normalized sqrtQ
          let left_ear_volume :=
            (left_ear_direction.dot emitter_direction_left + 1) / 2
          let right_ear_volume :=
            (right_ear_direction.dot emitter_direction_right + 1) / 2
          ⟨eo1.left * left_ear_volume, eo1.right * right_ear_volume⟩
        else eo1
      output + eo2)
    Frame.ZERO

end Listener

/-- The sum of a list of frames ("Sum into listener's output",
spec §4.9 step 4). -/
def frameSum (l : List Frame) : Frame := l.foldr (fun a b => a + b) Frame.ZERO

/-- The contribution of one emitter to a listener's output frame,
written from spec §4.9's numbered steps: take E's output frame; if E
has an attenuation function, scale the frame by the amplitude of the
decibel-space lerp from `MIN_DECIBELS` to 0 at the attenuated relative
volume; if spatialization is enabled, multiply the left and right
channels by `(ear_dir · normalize(E.pos − ear_pos) + 1)/2` for the
left and right ear, the ear positions being the listener's position
offset by its orientation applied to LEFT/RIGHT scaled by 0.1. -/
def listenerEmitterContribution (sqrtQ ampToDb dbToAmp : ℚ → ℚ)
    (l : Listener) (e : Emitter) : Frame :=
  let afterAttenuation :=
    match e.attenuation_function with
    | some att =>
      let distance := (e.position - l.position).magnitude sqrtQ
      let relative_distance := e.distances.relative_distance distance
      let relative_volume := att (1 - relative_distance)
      e.output * ((Volume.lerp ampToDb (Volume.decibels Volume.MIN_DECIBELS)
          (Volume.decibels 0) relative_volume).as_amplitude dbToAmp)
    | none => e.output
  if e.enable_spatialization then
    let left_ear_position :=
      l.position + l.orientationQ.rotate_point (Vec3.LEFT * Listener.EAR_DISTANCE)
    let right_ear_position :=
      l.position + l.orientationQ.rotate_point (Vec3.RIGHT * Listener.EAR_DISTANCE)
    let left_gain := ((l.orientationQ.rotate_point Vec3.LEFT).dot
        ((e.position - left_ear_position).normalized sqrtQ) + 1) / 2
    let right_gain := ((l.orientationQ.rotate_point Vec3.RIGHT).dot
        ((e.position - right_ear_position).normalized sqrtQ) + 1) / 2
    ⟨afterAttenuation.left * left_gain, afterAttenuation.right * right_gain⟩
  else afterAttenuation

/-! ## Streaming sound handle (`kira-streaming/src/handle.rs`) -/

/-- A command accepted by a streaming sound, from `Command` in
`kira-streaming` (only the three variants pushed by the handle are
claimed about). -/
inductive Command where
  | pauseCmd (tween : Tween)
  | resumeCmd (tween : Tween)
  | stopCmd (tween : Tween)

/-- The error returned when a handle's command ring buffer is
saturated, from `CommandQueueFull` in `kira-streaming/src/handle.rs`. -/
inductive CommandQueueFull where
  | mk
  deriving DecidableEq

/-- Modelled from the spec: the producer side of a bounded
single-producer single-consumer ring buffer (the external `ringbuf`
crate; spec §4.1: "`push` returns failure if full").  The pending
elements are observed as a list bounded by the fixed capacity. -/
structure Producer (α : Type) where
  capacity : Nat
  buffer : List α

namespace Producer

/-- Whether the ring is saturated. -/
def isFull {α : Type} (p : Producer α) : Bool := p.capacity ≤ p.buffer.length

/-- Modelled from the spec: `Producer::push` (spec §4.1): fail if the
ring is full, otherwise append the element. -/
def push {α : Type} (p : Producer α) (a : α) : Except Unit (Producer α) :=
  if p.capacity ≤ p.buffer.length then Except.error ()
  else Except.ok ⟨p.capacity, p.buffer ++ [a]⟩

end Producer

/-- A handle to a streaming sound, from `StreamingSoundHandle` in
`kira-streaming/src/handle.rs`; holds the command producer.  (The
`shared` position field does not participate in the claims.) -/
structure StreamingSoundHandle where
  command_producer : Producer Command

namespace StreamingSoundHandle

/-- `StreamingSoundHandle::pause`: push a `Pause` command, mapping a
push failure to `CommandQueueFull`. -/
def pause (h : StreamingSoundHandle) (tween : Tween) :
    Except CommandQueueFull StreamingSoundHandle :=
  match h.command_producer.push (Command.pauseCmd tween) with
  | Except.ok p => Except.ok ⟨p⟩
  | Except.error _ => Except.error CommandQueueFull.mk

/-- `StreamingSoundHandle::resume`: push a `Resume` command, mapping a
push failure to `CommandQueueFull`. -/
def resume (h : StreamingSoundHandle) (tween : Tween) :
    Except CommandQueueFull StreamingSoundHandle :=
  match h.command_producer.push (Command.resumeCmd tween) with
  | Except.ok p => Except.ok ⟨p⟩
  | Except.error _ => Except.error CommandQueueFull.mk

/-- `StreamingSoundHandle::stop`: push a `Stop` command, mapping a
push failure to `CommandQueueFull`. -/
def stop (h : StreamingSoundHandle) (tween : Tween) :
    Except CommandQueueFull StreamingSoundHandle :=
  match h.command_producer.push (Command.stopCmd tween) with
  | Except.ok p => Except.ok ⟨p⟩
  | Except.error _ => Except.error CommandQueueFull.mk

end StreamingSoundHandle

/-! ## Static sound playback (modelled from the spec)

The implementation file `sound/static_sound/sound/mod.rs` is not under
src/ (only its test file is); the playback state machine below is
modelled from spec §4.5 and §3, in the shape its tests exercise
(`StaticSoundData { sample_rate, frames, settings }`).  Simplifications
relative to the spec, none of which the claims under study touch: the
4-sample resample window is collapsed to an exact sample fetch at the
integer cursor (cubic interpolation at fraction 0 returns the current
sample, and the claims only examine integer positions); the panning
factor applied to every emitted frame is carried as the abstract
function parameter `pan`; fade tweens interpolate linearly in the
amplitude domain (the claims only use zero-duration fades and the
full-volume resting value); reverse playback and delayed start times
are not modelled. -/

/-- Playback state of a static sound, from `PlaybackState` (spec §4.5:
`Playing | Pausing | Paused | Stopping | Stopped`). -/
inductive PlaybackState where
  | playing
  | pausing
  | paused
  | stopping
  | stopped
  deriving DecidableEq

/-- Modelled from the spec: recognized static sound settings
(spec §3, `StaticSoundSettings`); reverse is not modelled. -/
structure StaticSoundSettings where
  startTime : StartTime
  start_position : ℚ
  volume : Volume
  playback_rate : ℚ
  panning : ℚ
  loop_start : Option ℚ

/-- The default settings: start immediately at position 0, full
volume, unit playback rate, centered panning, no looping. -/
def StaticSoundSettings.new : StaticSoundSettings :=
  ⟨StartTime.immediate, 0, Volume.amplitude 1, 1, 1 / 2, none⟩

/-- The static sound data shape used by the sound and its tests:
sample rate, frames, settings. -/
structure SoundData where
  sample_rate : Nat
  frames : List Frame
  settings : StaticSoundSettings

/-- The duration of the data in seconds (frames / sample rate). -/
def SoundData.duration (d : SoundData) : ℚ := (d.frames.length : ℚ) / d.sample_rate

/-- The frame of the data at a position in seconds: the sample at
index `⌊position * sample_rate⌋`, the zero frame when out of range. -/
def SoundData.frameAt (d : SoundData) (position : ℚ) : Frame :=
  d.frames.getD (⌊position * (d.sample_rate : ℚ)⌋.toNat) Frame.ZERO

/-- Modelled from the spec: an internal fade toward a target volume
(spec §4.5 fade state machine), linear in the remaining time. -/
structure Fade where
  value : ℚ
  target : ℚ
  remaining : ℚ

namespace Fade

/-- The resting fade at full volume. -/
def initial : Fade := ⟨1, 1, 0⟩

/-- Redirect the fade toward a target over a duration. -/
def set (f : Fade) (target duration : ℚ) : Fade := ⟨f.value, target, duration⟩

/-- Advance the fade by `dt`; when the remaining time is used up the
fade settles on its target. -/
def update (f : Fade) (dt : ℚ) : Fade :=
  if f.remaining ≤ dt then ⟨f.target, f.target, 0⟩
  else ⟨f.value + (f.target - f.value) * (dt / f.remaining), f.target,
    f.remaining - dt⟩

/-- Whether the fade has settled on its target. -/
def finished (f : Fade) : Bool := decide (f.remaining = 0 ∧ f.value = f.target)

end Fade

/-- Modelled from the spec: the `StaticSound` playback state machine
(`sound/static_sound/sound/mod.rs` is missing from src/); spec §4.5. -/
structure StaticSound where
  data : SoundData
  state : PlaybackState
  waitingFor : Option ClockTime
  position : ℚ
  volumeFade : Fade
  volume : Volume
  panning : ℚ
  playback_rate : ℚ

namespace StaticSound

/-- Modelled from the spec: constructing the sound from its data
(spec §4.5): playback starts in `Playing` at the start position; a
`ClockTime` start time gates output until the target tick is
observed. -/
def mk_sound (data : SoundData) : StaticSound where
  data := data
  state := PlaybackState.playing
  waitingFor :=
    match data.settings.startTime with
    | StartTime.clockTime ct => some ct
    | _ => none
  position := data.settings.start_position
  volumeFade := Fade.initial
  volume := data.settings.volume
  panning := data.settings.panning
  playback_rate := data.settings.playback_rate

/-- `finished`: the sound is finished exactly when it is `Stopped`
(spec §4.5: "`finished` = Stopped"). -/
def finished (s : StaticSound) : Bool := s.state = PlaybackState.stopped

/-- Modelled from the spec: the loop wrap rule (spec §4.5): a position
at or past the end with `loop_behavior = {start_position: ls}` wraps to
`ls + (position − duration) mod (duration − ls)`.  `qmod a b` is the
least non-negative representative `a − b·⌊a/b⌋`. -/
def qmod (a b : ℚ) : ℚ := a - b * ⌊a / b⌋

/-- Normalize a position against the loop rule: wrap when looping and
at or past the end, otherwise leave it unchanged. -/
def normalizePosition (d : SoundData) (pos : ℚ) : ℚ :=
  match d.settings.loop_start with
  | some ls => if d.duration ≤ pos then ls + qmod (pos - d.duration) (d.duration - ls) else pos
  | none => pos

/-- Modelled from the spec: `StaticSound::pause` (spec §4.5): enter
`Pausing` and drive a fade-out over the tween's duration.  A stopped
sound stays stopped (`finished` is sticky, spec §3 invariants). -/
def pause (s : StaticSound) (tween : Tween) : StaticSound :=
  if s.state = PlaybackState.stopped then s
  else
    { s with
      state := PlaybackState.pausing,
      volumeFade := s.volumeFade.set 0 tween.duration }

/-- Modelled from the spec: `StaticSound::resume` (spec §4.5): enter
`Playing` and fade back in over the tween's duration.  A stopped sound
stays stopped (`finished` is sticky, spec §3 invariants). -/
def resume (s : StaticSound) (tween : Tween) : StaticSound :=
  if s.state = PlaybackState.stopped then s
  else
    { s with
      state := PlaybackState.playing,
      volumeFade := s.volumeFade.set 1 tween.duration }

/-- Modelled from the spec: `StaticSound::stop` (spec §4.5): enter
`Stopping` and fade out; a stopped sound stays stopped. -/
def stop (s : StaticSound) (tween : Tween) : StaticSound :=
  if s.state = PlaybackState.stopped then s
  else
    { s with
      state := PlaybackState.stopping,
      volumeFade := s.volumeFade.set 0 tween.duration }

/-- Modelled from the spec: `SeekTo` (spec §4.5): set the playback
position, wrapping with the loop rule when seeking at or past the end
of a looping sound. -/
def seek_to (s : StaticSound) (position : ℚ) : StaticSound :=
  { s with position := normalizePosition s.data position }

/-- Modelled from the spec: `SeekBy` (spec §4.5): seek relative to the
current position. -/
def seek_by (s : StaticSound) (amount : ℚ) : StaticSound :=
  s.seek_to (s.position + amount)

/-- Modelled from the spec: `SetVolume` (spec §4.5); the claims under
study do not observe mid-tween volume values, so the command applies
its value directly. -/
def set_volume (s : StaticSound) (volume : Volume) : StaticSound :=
  { s with volume := volume }

/-- Modelled from the spec: `SetPanning` (spec §4.5). -/
def set_panning (s : StaticSound) (panning : ℚ) : StaticSound :=
  { s with panning := panning }

/-- Modelled from the spec: `SetPlaybackRate` (spec §4.5). -/
def set_playback_rate (s : StaticSound) (rate : ℚ) : StaticSound :=
  { s with playback_rate := rate }

/-- Modelled from the spec: `StaticSound::on_clock_tick` (spec §4.5
start gating): a sound waiting on `ClockTime(c, T)` starts on the
first observed tick with the same clock and at least `T` ticks; ticks
of other clocks or earlier counts leave the gate closed. -/
def on_clock_tick (s : StaticSound) (time : ClockTime) : StaticSound :=
  match s.waitingFor with
  | some ct =>
    if time.clock = ct.clock ∧ ct.ticks ≤ time.ticks then
      { s with waitingFor := none }
    else s
  | none => s

/-- Modelled from the spec: `StaticSound::process` (spec §4.5): drive
the fade and resolve a completed `Pausing`/`Stopping` into
`Paused`/`Stopped`; while gated on a clock or while paused or stopped,
emit the silent frame without advancing; otherwise emit the frame at
the cursor scaled by the settings volume and the fade, panned, and
advance the cursor by `playback_rate · dt`, wrapping with the loop
rule or entering `Stopped` at the end of the data. -/
def process (dbToAmp : ℚ → ℚ) (pan : ℚ → Frame → Frame) (s : StaticSound)
    (dt : ℚ) : StaticSound × Frame :=
  let fade := s.volumeFade.update dt
  let state :=
    match s.state with
    | PlaybackState.pausing =>
      if fade.finished then PlaybackState.paused else PlaybackState.pausing
    | PlaybackState.stopping =>
      if fade.finished then PlaybackState.stopped else PlaybackState.stopping
    | st => st
  if s.waitingFor.isSome then
    ({ s with volumeFade := fade, state := state }, Frame.ZERO)
  else if state = PlaybackState.paused ∨ state = PlaybackState.stopped then
    ({ s with volumeFade := fade, state := state }, Frame.ZERO)
  else
    let out :=
      pan s.panning
        (s.data.frameAt s.position * (s.volume.as_amplitude dbToAmp * fade.value))
    let npos := s.position + s.playback_rate * dt
    match s.data.settings.loop_start with
    | some _ =>
      ({ s with
          volumeFade := fade, state := state,
          position := normalizePosition s.data npos }, out)
    | none =>
      if s.data.duration ≤ npos then
        ({ s with
            volumeFade := fade, state := PlaybackState.stopped,
            position := s.data.duration }, out)
      else
        ({ s with volumeFade := fade, state := state, position := npos }, out)

/-- An interaction with a static sound: one command drained from the
ring buffer (spec §4.5's command list), one clock tick delivery, or
one audio frame of processing. -/
inductive Event where
  | processE (dt : ℚ)
  | tickE (time : ClockTime)
  | pauseE (tween : Tween)
  | resumeE (tween : Tween)
  | stopE (tween : Tween)
  | seekToE (position : ℚ)
  | seekByE (amount : ℚ)
  | setVolumeE (volume : Volume)
  | setPanningE (panning : ℚ)
  | setPlaybackRateE (rate : ℚ)

/-- Apply one event to the sound, discarding any output frame. -/
def applyEvent (dbToAmp : ℚ → ℚ) (pan : ℚ → Frame → Frame)
    (s : StaticSound) : Event → StaticSound
  | Event.processE dt => (s.process dbToAmp pan dt).1
  | Event.tickE time => s.on_clock_tick time
  | Event.pauseE tween => s.pause tween
  | Event.resumeE tween => s.resume tween
  | Event.stopE tween => s.stop tween
  | Event.seekToE position => s.seek_to position
  | Event.seekByE amount => s.seek_by amount
  | Event.setVolumeE volume => s.set_volume volume
  | Event.setPanningE panning => s.set_panning panning
  | Event.setPlaybackRateE rate => s.set_playback_rate rate

/-- Run a sequence of events, collecting the frames emitted by the
`process` events in order. -/
def runEvents (dbToAmp : ℚ → ℚ) (pan : ℚ → Frame → Frame) :
    List Event → StaticSound → StaticSound × List Frame
  | [], s => (s, [])
  | Event.processE dt :: es, s =>
    let r := s.process dbToAmp pan dt
    let rest := runEvents dbToAmp pan es r.1
    (rest.1, r.2 :: rest.2)
  | e :: es, s => runEvents dbToAmp pan es (applyEvent dbToAmp pan s e)

end StaticSound

/-! ## Theorems -/

section ClaimC7

/-- C7: for every `Samples` value in any of the four variants, the
composition `ensure_stereo(ensure_32_bit(s))` preserves the number of
sample frames: its `len` equals `s.len`. -/
theorem samples_promotion_preserves_len (s : Samples) :
    (s.ensure_32_bit.ensure_stereo).len = s.len := by
  cases s <;>
    simp [Samples.ensure_32_bit, Samples.ensure_stereo, Samples.len]

end ClaimC7

section ClaimC10

theorem setFirstRoute_of_absent (dest : TrackId) (v : Volume) (tw : Tween) :
    ∀ l : List (TrackId × Tweener Volume), (∀ p ∈ l, p.1 ≠ dest) →
      Track.setFirstRoute dest v tw l = l := by
  intro l
  induction l with
  | nil => intro _; rfl
  | cons p rest ih =>
    intro h
    obtain ⟨id, r⟩ := p
    have hid : id ≠ dest := h (id, r) (List.mem_cons_self _ _)
    simp only [Track.setFirstRoute, if_neg hid]
    rw [ih fun q hq => h q (List.mem_cons_of_mem _ hq)]

theorem setFirstRoute_map_fst (dest : TrackId) (v : Volume) (tw : Tween) :
    ∀ l : List (TrackId × Tweener Volume),
      (Track.setFirstRoute dest v tw l).map Prod.fst = l.map Prod.fst := by
  intro l
  induction l with
  | nil => rfl
  | cons p rest ih =>
    obtain ⟨id, r⟩ := p
    by_cases hid : id = dest
    · simp [Track.setFirstRoute, hid]
    · simp [Track.setFirstRoute, hid, ih]

theorem setFirstRoute_other_entries (dest : TrackId) (v : Volume) (tw : Tween) :
    ∀ (l : List (TrackId × Tweener Volume)) (i : Nat)
      (p : TrackId × Tweener Volume),
      l.get? i = some p → p.1 ≠ dest →
      (Track.setFirstRoute dest v tw l).get? i = some p := by
  intro l
  induction l with
  | nil => intro i p h _; cases h
  | cons q rest ih =>
    intro i p h hp
    obtain ⟨id, r⟩ := q
    cases i with
    | zero =>
      cases h
      simp only [Track.setFirstRoute, if_neg hp]
      rfl
    | succ i =>
      by_cases hid : id = dest
      · simpa [Track.setFirstRoute, hid] using h
      · simp only [Track.setFirstRoute, if_neg hid, List.get?_cons_succ]
        exact ih i p h hp

/-- C10: `Track::set_route` with a destination id not present in the
route list is a silent no-op: the track is unchanged; in general
`set_route` only touches the route whose id matches, never adding a
route, changing route ids, or touching the volume, effects or input of
the track. -/
theorem set_route_unknown_destination_noop {σ : Type} (t : Track σ)
    (dest : TrackId) (v : Volume) (tw : Tween) :
    ((∀ p ∈ t.routes, p.1 ≠ dest) → t.set_route dest v tw = t) ∧
    (t.set_route dest v tw).volume = t.volume ∧
    (t.set_route dest v tw).effects = t.effects ∧
    (t.set_route dest v tw).input = t.input ∧
    (t.set_route dest v tw).routes.map Prod.fst = t.routes.map Prod.fst ∧
    (∀ (i : Nat) (p : TrackId × Tweener Volume), t.routes.get? i = some p →
      p.1 ≠ dest → (t.set_route dest v tw).routes.get? i = some p) := by
  obtain ⟨vol, routes, effects, input⟩ := t
  refine ⟨fun h => ?_, rfl, rfl, rfl, ?_, fun i p hip hp => ?_⟩
  · simp only [Track.set_route]
    rw [setFirstRoute_of_absent dest v tw routes h]
  · exact setFirstRoute_map_fst dest v tw routes
  · exact setFirstRoute_other_entries dest v tw routes i p hip hp

/-- Witness for C10 at a concrete track: a route list holding only the
main track, asked to set a route to a sub-track that is not there. -/
theorem set_route_unknown_destination_noop_witness :
    Track.set_route (σ := Unit)
        ⟨Tweener.new (Volume.amplitude 1),
          [(TrackId.main, Tweener.new (Volume.amplitude 1))], [], Frame.ZERO⟩
        (TrackId.sub 0) (Volume.amplitude 0) Tween.zero =
      ⟨Tweener.new (Volume.amplitude 1),
        [(TrackId.main, Tweener.new (Volume.amplitude 1))], [], Frame.ZERO⟩ := by
  refine (set_route_unknown_destination_noop (σ := Unit)
      ⟨Tweener.new (Volume.amplitude 1),
        [(TrackId.main, Tweener.new (Volume.amplitude 1))], [], Frame.ZERO⟩
      (TrackId.sub 0) (Volume.amplitude 0) Tween.zero).1 ?_
  intro p hp
  rw [List.mem_singleton] at hp
  subst hp
  decide

end ClaimC10

section ClaimC6

/-- C6: each of `pause`, `resume` and `stop` on a streaming sound
handle fails with `CommandQueueFull` exactly when the command ring
buffer is saturated; otherwise it succeeds and enqueues exactly that
one command at the back of the ring. -/
theorem streaming_handle_push_full_iff (h : StreamingSoundHandle)
    (tw : Tween) :
    (h.command_producer.isFull = true →
      h.pause tw = Except.error CommandQueueFull.mk ∧
      h.resume tw = Except.error CommandQueueFull.mk ∧
      h.stop tw = Except.error CommandQueueFull.mk) ∧
    (h.command_producer.isFull = false →
      h.pause tw = Except.ok ⟨⟨h.command_producer.capacity,
        h.command_producer.buffer ++ [Command.pauseCmd tw]⟩⟩ ∧
      h.resume tw = Except.ok ⟨⟨h.command_producer.capacity,
        h.command_producer.buffer ++ [Command.resumeCmd tw]⟩⟩ ∧
      h.stop tw = Except.ok ⟨⟨h.command_producer.capacity,
        h.command_producer.buffer ++ [Command.stopCmd tw]⟩⟩) := by
  constructor
  · intro hfull
    have hc : h.command_producer.capacity ≤ h.command_producer.buffer.length := by
      simpa [Producer.isFull] using hfull
    refine ⟨?_, ?_, ?_⟩ <;>
      simp [StreamingSoundHandle.pause, StreamingSoundHandle.resume,
        StreamingSoundHandle.stop, Producer.push, if_pos hc]
  · intro hnot
    have hc : ¬h.command_producer.capacity ≤ h.command_producer.buffer.length := by
      simpa [Producer.isFull] using hnot
    refine ⟨?_, ?_, ?_⟩ <;>
      simp [StreamingSoundHandle.pause, StreamingSoundHandle.resume,
        StreamingSoundHandle.stop, Producer.push, if_neg hc]

/-- Witness for C6: on a one-slot empty ring the three calls succeed
and enqueue their command; on a zero-capacity ring they all fail with
`CommandQueueFull`. -/
theorem streaming_handle_push_full_iff_witness :
    (StreamingSoundHandle.pause ⟨⟨1, []⟩⟩ Tween.zero =
        Except.ok ⟨⟨1, [Command.pauseCmd Tween.zero]⟩⟩ ∧
      StreamingSoundHandle.stop ⟨⟨1, []⟩⟩ Tween.zero =
        Except.ok ⟨⟨1, [Command.stopCmd Tween.zero]⟩⟩) ∧
    (StreamingSoundHandle.resume ⟨⟨0, []⟩⟩ Tween.zero =
        Except.error CommandQueueFull.mk) := by
  have hok := (streaming_handle_push_full_iff ⟨⟨1, []⟩⟩ Tween.zero).2 (by decide)
  have herr := (streaming_handle_push_full_iff ⟨⟨0, []⟩⟩ Tween.zero).1 (by decide)
  exact ⟨⟨hok.1, hok.2.2⟩, herr.2.1⟩

end ClaimC6

section ClaimC1

theorem effectChain_foldl {σ : Type} (dt : ℚ) (es : List (Effect σ)) :
    ∀ (f : Frame) (acc : List (Effect σ)),
      es.foldl
        (fun (a : List (Effect σ) × Frame) e =>
          let r := e.process a.2 dt
          (a.1 ++ [r.1], r.2)) (acc, f) =
      (acc ++ (Track.effectChain dt es f).1, (Track.effectChain dt es f).2) := by
  induction es with
  | nil => intro f acc; simp [Track.effectChain]
  | cons e rest ih =>
    intro f acc
    simp only [List.foldl_cons, Track.effectChain]
    rw [ih]
    simp

/-- C1: `Track::process` performs exactly the spec's steps: the
returned track has its volume tween updated by `dt`, every route's
volume tween updated by `dt`, and its input accumulator reset to the
zero frame; the effects are those stepped by folding the taken input
frame through the chain in sequence order; and the returned frame is
that fold's result multiplied by the updated volume tween's current
value converted to amplitude. -/
theorem track_process_follows_spec {σ : Type} (ampToDb dbToAmp : ℚ → ℚ)
    (t : Track σ) (dt : ℚ) :
    (t.process ampToDb dbToAmp dt).1.volume
      = t.volume.update (Volume.lerp ampToDb) dt ∧
    (t.process ampToDb dbToAmp dt).1.routes
      = t.routes.map (fun r => (r.1, r.2.update (Volume.lerp ampToDb) dt)) ∧
    (t.process ampToDb dbToAmp dt).1.input = Frame.ZERO ∧
    (t.process ampToDb dbToAmp dt).1.effects
      = (Track.effectChain dt t.effects t.input).1 ∧
    (t.process ampToDb dbToAmp dt).2
      = (Track.effectChain dt t.effects t.input).2
          * ((t.volume.update (Volume.lerp ampToDb) dt).value.as_amplitude
              dbToAmp) := by
  have h := effectChain_foldl dt t.effects t.input []
  simp only [Track.process, h, List.nil_append]
  exact ⟨trivial, trivial, trivial, trivial, trivial⟩

end ClaimC1

section ClaimC9

theorem getD_map_append_replicate {α β : Type} (f : α → β) (z : α) (Z : β)
    (hz : f z = Z) (l : List α) (k i : Nat) :
    (((l ++ List.replicate k z).get? i).map f).getD Z
      = ((l.get? i).map f).getD Z := by
  by_cases hi : i < l.length
  · rw [List.get?_append hi]
  · push_neg at hi
    rw [List.get?_append_right hi, List.get?_eq_none.mpr hi]
    cases hr : (List.replicate k z).get? (i - l.length) with
    | none => rfl
    | some a =>
      have ha : a = z := List.eq_of_mem_replicate (List.get?_mem hr)
      subst ha
      simp [hz]

theorem frame_at_index_pad (d : StaticSoundData) (k i : Nat) :
    StaticSoundData.frame_at_index ⟨d.sample_rate, d.samples.pad k⟩ i
      = d.frame_at_index i := by
  obtain ⟨rate, samples⟩ := d
  cases samples with
  | i16Mono samples =>
    simpa only [StaticSoundData.frame_at_index, Samples.pad] using
      getD_map_append_replicate
        (fun s => Frame.from_mono (Samples.i16ToF32 s)) 0 Frame.ZERO
        (by simp [Samples.i16ToF32, Frame.from_mono, Frame.ZERO]) samples k i
  | i16Stereo samples =>
    simpa only [StaticSoundData.frame_at_index, Samples.pad] using
      getD_map_append_replicate
        (fun (s : ℤ × ℤ) => Frame.mk (Samples.i16ToF32 s.1) (Samples.i16ToF32 s.2))
        (0, 0) Frame.ZERO
        (by simp [Samples.i16ToF32, Frame.ZERO]) samples k i
  | f32Mono samples =>
    simpa only [StaticSoundData.frame_at_index, Samples.pad] using
      getD_map_append_replicate
        (fun s => Frame.from_mono s) 0 Frame.ZERO
        (by simp [Frame.from_mono, Frame.ZERO]) samples k i
  | frame samples =>
    have h := getD_map_append_replicate (fun s => s) Frame.ZERO Frame.ZERO rfl
      samples k i
    have hmap : ∀ o : Option Frame, Option.map (fun s => s) o = o := by
      intro o; cases o <;> rfl
    rw [hmap, hmap] at h
    simpa only [StaticSoundData.frame_at_index, Samples.pad] using h

/-- C9: sample fetches of a static sound never fail: `frame_at_index`
returns the zero frame for every index at or past the end of the
samples, and `frame_at_position` reads as if the sample data were
padded with zero frames — appending any number of zero-valued samples
never changes its value at any position (so every window read past the
end is the zero frame, as is the window frame before index 0 by
definition). -/
theorem frame_access_out_of_bounds_zero (d : StaticSoundData) :
    (∀ i, d.samples.len ≤ i → d.frame_at_index i = Frame.ZERO) ∧
    (∀ (k : Nat) (p : ℚ),
      StaticSoundData.frame_at_position ⟨d.sample_rate, d.samples.pad k⟩ p
        = d.frame_at_position p) := by
  constructor
  · intro i hi
    obtain ⟨rate, samples⟩ := d
    cases samples <;>
      simp only [StaticSoundData.frame_at_index] <;>
      rw [List.get?_eq_none.mpr (by simpa [Samples.len] using hi)] <;> rfl
  · intro k p
    simp only [StaticSoundData.frame_at_position, frame_at_index_pad]

/-- Witness for C9, at concrete data: two mono samples read at index 5
(past the end) and at position 0 with one frame of padding. -/
theorem frame_access_out_of_bounds_zero_witness :
    StaticSoundData.frame_at_index ⟨1, Samples.f32Mono [2, 3]⟩ 5 = Frame.ZERO ∧
    StaticSoundData.frame_at_position
        ⟨1, (Samples.f32Mono [2, 3]).pad 1⟩ 0
      = StaticSoundData.frame_at_position ⟨1, Samples.f32Mono [2, 3]⟩ 0 := by
  have h := frame_access_out_of_bounds_zero ⟨1, Samples.f32Mono [2, 3]⟩
  exact ⟨h.1 5 (by decide), h.2 1 0⟩

end ClaimC9

section ClaimC5

theorem add_zero_frame (a : Frame) : a + Frame.ZERO = a := by
  cases a; simp [Frame.ZERO, Frame.add_def]

theorem foldl_add_frameSum (g : Emitter → Frame) :
    ∀ (es : List Emitter) (acc : Frame),
      es.foldl (fun o e => o + g e) acc = acc + frameSum (es.map g) := by
  intro es
  induction es with
  | nil => intro acc; simp [frameSum, add_zero_frame]
  | cons e rest ih =>
    intro acc
    simp only [List.foldl_cons, List.map_cons, frameSum, List.foldr_cons]
    rw [ih (acc + g e), Frame.add_assoc_frame]
    rfl

/-- C5: `Listener::process` is the sum, over all emitters of the
scene, of the per-emitter contribution of spec §4.9: the emitter's
output frame, attenuated by the decibel-lerp amplitude of the
attenuation curve at `1 − clamp((|E.pos − L.pos| − dmin)/(dmax −
dmin), 0, 1)` when the curve is set, and spatialized per ear by
`(ear_dir · normalize(E.pos − ear_pos) + 1)/2` when enabled. -/
theorem listener_process_sums_contributions (sqrtQ ampToDb dbToAmp : ℚ → ℚ)
    (l : Listener) (emitters : List Emitter) :
    l.process sqrtQ ampToDb dbToAmp emitters
      = frameSum
          (emitters.map (listenerEmitterContribution sqrtQ ampToDb dbToAmp l)) := by
  have hbody :
      (fun (output : Frame) (emitter : Emitter) =>
        let eo0 := emitter.output
        let eo1 :=
          match emitter.attenuation_function with
          | some att =>
            let distance := (emitter.position - l.position).magnitude sqrtQ
            let relative_distance := emitter.distances.relative_distance distance
            let relative_volume := att (1 - relative_distance)
            let amplitude :=
              (Volume.lerp ampToDb (Volume.decibels Volume.MIN_DECIBELS)
                (Volume.decibels 0) relative_volume).as_amplitude dbToAmp
            eo0 * amplitude
          | none => eo0
        let eo2 :=
          if emitter.enable_spatialization then
            let earPos := l.ear_positions
            let left_ear_direction := l.orientationQ.rotate_point Vec3.LEFT
            let right_ear_direction := l.orientationQ.rotate_point Vec3.RIGHT
            let emitter_direction_left :=
              (emitter.position - earPos.1).normalized sqrtQ
            let emitter_direction_right :=
              (emitter.position - earPos.2).normalized sqrtQ
            let left_ear_volume :=
              (left_ear_direction.dot emitter_direction_left + 1) / 2
            let right_ear_volume :=
              (right_ear_direction.dot emitter_direction_right + 1) / 2
            ⟨eo1.left * left_ear_volume, eo1.right * right_ear_volume⟩
          else eo1
        output + eo2) =
      fun o e => o + listenerEmitterContribution sqrtQ ampToDb dbToAmp l e := by
    funext o e
    cases hatt : e.attenuation_function <;>
      cases hsp : e.enable_spatialization <;>
        simp [listenerEmitterContribution, Listener.ear_positions, hatt, hsp]
  show List.foldl _ Frame.ZERO emitters = _
  rw [hbody, foldl_add_frameSum, Frame.zero_add_frame]

end ClaimC5

section StaticSoundLemmas

namespace StaticSound

theorem on_clock_tick_state (s : StaticSound) (t : ClockTime) :
    (s.on_clock_tick t).state = s.state := by
  unfold on_clock_tick
  cases s.waitingFor with
  | none => rfl
  | some ct => dsimp only; split <;> rfl

theorem process_stopped (dbToAmp : ℚ → ℚ) (pan : ℚ → Frame → Frame)
    (s : StaticSound) (dt : ℚ) (h : s.state = PlaybackState.stopped) :
    (s.process dbToAmp pan dt).1.state = PlaybackState.stopped ∧
    (s.process dbToAmp pan dt).2 = Frame.ZERO := by
  unfold process
  rw [h]
  by_cases hw : s.waitingFor.isSome <;> simp [hw]

theorem applyEvent_stopped (dbToAmp : ℚ → ℚ) (pan : ℚ → Frame → Frame)
    (s : StaticSound) (e : Event) (h : s.state = PlaybackState.stopped) :
    (applyEvent dbToAmp pan s e).state = PlaybackState.stopped := by
  cases e with
  | processE dt => exact (process_stopped dbToAmp pan s dt h).1
  | tickE t => rw [applyEvent, on_clock_tick_state]; exact h
  | pauseE tween => simp [applyEvent, pause, h]
  | resumeE tween => simp [applyEvent, resume, h]
  | stopE tween => simp [applyEvent, stop, h]
  | seekToE p => exact h
  | seekByE a => exact h
  | setVolumeE v => exact h
  | setPanningE p => exact h
  | setPlaybackRateE r => exact h

theorem runEvents_stopped (dbToAmp : ℚ → ℚ) (pan : ℚ → Frame → Frame) :
    ∀ (es : List Event) (s : StaticSound), s.state = PlaybackState.stopped →
      (runEvents dbToAmp pan es s).1.state = PlaybackState.stopped ∧
      ∀ f ∈ (runEvents dbToAmp pan es s).2, f = Frame.ZERO := by
  intro es
  induction es with
  | nil => intro s h; exact ⟨h, by intro f hf; cases hf⟩
  | cons e rest ih =>
    intro s h
    cases e with
    | processE dt =>
      have hp := process_stopped dbToAmp pan s dt h
      have hr := ih (s.process dbToAmp pan dt).1 hp.1
      refine ⟨hr.1, ?_⟩
      intro f hf
      rcases List.mem_cons.mp hf with hf | hf
      · rw [hf, hp.2]
      · exact hr.2 f hf
    | tickE t => exact ih _ (applyEvent_stopped dbToAmp pan s (Event.tickE t) h)
    | pauseE tw => exact ih _ (applyEvent_stopped dbToAmp pan s (Event.pauseE tw) h)
    | resumeE tw => exact ih _ (applyEvent_stopped dbToAmp pan s (Event.resumeE tw) h)
    | stopE tw => exact ih _ (applyEvent_stopped dbToAmp pan s (Event.stopE tw) h)
    | seekToE p => exact ih _ (applyEvent_stopped dbToAmp pan s (Event.seekToE p) h)
    | seekByE a => exact ih _ (applyEvent_stopped dbToAmp pan s (Event.seekByE a) h)
    | setVolumeE v => exact ih _ (applyEvent_stopped dbToAmp pan s (Event.setVolumeE v) h)
    | setPanningE p => exact ih _ (applyEvent_stopped dbToAmp pan s (Event.setPanningE p) h)
    | setPlaybackRateE r =>
      exact ih _ (applyEvent_stopped dbToAmp pan s (Event.setPlaybackRateE r) h)

end StaticSound

end StaticSoundLemmas

section ClaimC4

/-- C4: the finished flag of a static sound is sticky: once
`finished()` is true — equivalently, once the state is `Stopped` — it
stays true across every further sequence of commands, clock ticks and
process calls, and the state never leaves `Stopped` (all further
emitted frames are silent). -/
theorem static_sound_finished_sticky (dbToAmp : ℚ → ℚ)
    (pan : ℚ → Frame → Frame) (es : List StaticSound.Event)
    (s : StaticSound) (h : s.finished = true) :
    (StaticSound.runEvents dbToAmp pan es s).1.state = PlaybackState.stopped ∧
    (StaticSound.runEvents dbToAmp pan es s).1.finished = true ∧
    ∀ f ∈ (StaticSound.runEvents dbToAmp pan es s).2, f = Frame.ZERO := by
  have hs : s.state = PlaybackState.stopped := by
    simpa [StaticSound.finished] using h
  have hr := StaticSound.runEvents_stopped dbToAmp pan es s hs
  exact ⟨hr.1, by simp [StaticSound.finished, hr.1], hr.2⟩

/-- Witness for C4: a concrete stopped sound stays stopped across a
pause, a process call, a resume, a seek and another process call. -/
theorem static_sound_finished_sticky_witness :
    (StaticSound.runEvents (fun q => q) (fun _ f => f)
        [StaticSound.Event.pauseE Tween.zero, StaticSound.Event.processE 1,
          StaticSound.Event.resumeE Tween.zero, StaticSound.Event.seekToE 0,
          StaticSound.Event.processE 1]
        ⟨⟨1, [Frame.from_mono 1], StaticSoundSettings.new⟩,
          PlaybackState.stopped, none, 0, Fade.initial, Volume.amplitude 1,
          1 / 2, 1⟩).1.finished = true := by
  exact (static_sound_finished_sticky (fun q => q) (fun _ f => f)
    [StaticSound.Event.pauseE Tween.zero, StaticSound.Event.processE 1,
      StaticSound.Event.resumeE Tween.zero, StaticSound.Event.seekToE 0,
      StaticSound.Event.processE 1]
    ⟨⟨1, [Frame.from_mono 1], StaticSoundSettings.new⟩,
      PlaybackState.stopped, none, 0, Fade.initial, Volume.amplitude 1,
      1 / 2, 1⟩ rfl).2.1

end ClaimC4

section ClaimC3

theorem qmod_eq_mul_fract (a b : ℚ) (hb : b ≠ 0) :
    StaticSound.qmod a b = b * Int.fract (a / b) := by
  unfold StaticSound.qmod
  rw [Int.fract]
  field_simp

theorem qmod_nonneg (a b : ℚ) (hb : 0 < b) : 0 ≤ StaticSound.qmod a b := by
  rw [qmod_eq_mul_fract a b (ne_of_gt hb)]
  exact mul_nonneg (le_of_lt hb) (Int.fract_nonneg _)

theorem qmod_lt (a b : ℚ) (hb : 0 < b) : StaticSound.qmod a b < b := by
  rw [qmod_eq_mul_fract a b (ne_of_gt hb)]
  calc b * Int.fract (a / b) < b * 1 :=
        (mul_lt_mul_left hb).mpr (Int.fract_lt_one _)
    _ = b := mul_one b

theorem qmod_zero_left (b : ℚ) : StaticSound.qmod 0 b = 0 := by
  simp [StaticSound.qmod]

/-- C3: for a looping static sound with loop start `ls < duration`, a
`seek_to(p)` with `p` at or past the end sets the effective playback
position to `ls + ((p − duration) mod (duration − ls))`, a value in
`[ls, duration)`; in particular seeking to exactly the duration wraps
to the loop start. -/
theorem seek_past_end_wraps (s : StaticSound) (ls p : ℚ)
    (hloop : s.data.settings.loop_start = some ls)
    (hls : ls < s.data.duration) (hp : s.data.duration ≤ p) :
    (s.seek_to p).position
      = ls + StaticSound.qmod (p - s.data.duration) (s.data.duration - ls) ∧
    ls ≤ (s.seek_to p).position ∧
    (s.seek_to p).position < s.data.duration ∧
    (s.seek_to s.data.duration).position = ls := by
  have hb : (0 : ℚ) < s.data.duration - ls := by linarith
  have hpos : (s.seek_to p).position
      = ls + StaticSound.qmod (p - s.data.duration) (s.data.duration - ls) := by
    simp [StaticSound.seek_to, StaticSound.normalizePosition, hloop, if_pos hp]
  refine ⟨hpos, ?_, ?_, ?_⟩
  · rw [hpos]
    have := qmod_nonneg (p - s.data.duration) (s.data.duration - ls) hb
    linarith
  · rw [hpos]
    have := qmod_lt (p - s.data.duration) (s.data.duration - ls) hb
    linarith
  · simp [StaticSound.seek_to, StaticSound.normalizePosition, hloop,
      qmod_zero_left]

/-- Witness for C3, the spec's literal example: duration 100 s, loop
start 5.0, `seek_to(120.0)` lands at position 25.0; `seek_to(100.0)`
(exactly the duration) wraps to 5.0. -/
theorem seek_past_end_wraps_witness :
    (StaticSound.seek_to
        (StaticSound.mk_sound
          ⟨1, List.replicate 100 (Frame.from_mono 1),
            ⟨StartTime.immediate, 0, Volume.amplitude 1, 1, 1 / 2, some 5⟩⟩)
        120).position = 25 ∧
    (StaticSound.seek_to
        (StaticSound.mk_sound
          ⟨1, List.replicate 100 (Frame.from_mono 1),
            ⟨StartTime.immediate, 0, Volume.amplitude 1, 1, 1 / 2, some 5⟩⟩)
        100).position = 5 := by
  have hdur : (StaticSound.mk_sound
      ⟨1, List.replicate 100 (Frame.from_mono 1),
        ⟨StartTime.immediate, 0, Volume.amplitude 1, 1, 1 / 2, some 5⟩⟩
      : StaticSound).data.duration = 100 := by
    simp [StaticSound.mk_sound, SoundData.duration]
  have h := seek_past_end_wraps
    (StaticSound.mk_sound
      ⟨1, List.replicate 100 (Frame.from_mono 1),
        ⟨StartTime.immediate, 0, Volume.amplitude 1, 1, 1 / 2, some 5⟩⟩)
    5 120 rfl (by rw [hdur]; norm_num) (by rw [hdur]; norm_num)
  constructor
  · rw [h.1, hdur]
    norm_num [StaticSound.qmod]
  · have h100 := h.2.2.2
    rw [hdur] at h100
    exact h100

end ClaimC3

section ClaimC8

/-- C8: for a static sound gated on a future clock tick, transport
commands still apply immediately: a `stop` with a zero-duration tween
followed by one process call leaves the sound `Stopped` (and it never
starts playing: every further event sequence keeps it `Stopped` with
silent output); a `pause` followed by one process call leaves it
`Paused` with the clock gate still closed; a subsequent `resume` and
process call leaves it `Playing`, the gate still closed. -/
theorem gated_sound_immediate_commands (dbToAmp : ℚ → ℚ)
    (pan : ℚ → Frame → Frame) (data : SoundData) (c T : Nat) (dt : ℚ)
    (hst : data.settings.startTime = StartTime.clockTime ⟨c, T⟩)
    (hdt : 0 ≤ dt) :
    (((StaticSound.mk_sound data).stop Tween.zero).process dbToAmp pan dt).1.state
        = PlaybackState.stopped ∧
    (∀ es : List StaticSound.Event,
      (StaticSound.runEvents dbToAmp pan es
          (((StaticSound.mk_sound data).stop Tween.zero).process dbToAmp pan
            dt).1).1.state = PlaybackState.stopped ∧
      ∀ f ∈ (StaticSound.runEvents dbToAmp pan es
          (((StaticSound.mk_sound data).stop Tween.zero).process dbToAmp pan
            dt).1).2, f = Frame.ZERO) ∧
    (((StaticSound.mk_sound data).pause Tween.zero).process dbToAmp pan dt).1.state
        = PlaybackState.paused ∧
    (((StaticSound.mk_sound data).pause Tween.zero).process dbToAmp pan
        dt).1.waitingFor = some ⟨c, T⟩ ∧
    (((((StaticSound.mk_sound data).pause Tween.zero).process dbToAmp pan
        dt).1.resume Tween.zero).process dbToAmp pan dt).1.state
        = PlaybackState.playing ∧
    (((((StaticSound.mk_sound data).pause Tween.zero).process dbToAmp pan
        dt).1.resume Tween.zero).process dbToAmp pan dt).1.waitingFor
        = some ⟨c, T⟩ := by
  have hstop :
      (((StaticSound.mk_sound data).stop Tween.zero).process dbToAmp pan
        dt).1.state = PlaybackState.stopped := by
    simp [StaticSound.mk_sound, StaticSound.stop, StaticSound.process,
      Tween.zero, Fade.initial, Fade.set, Fade.update, Fade.finished, hst, hdt]
  refine ⟨hstop, ?_, ?_, ?_, ?_, ?_⟩
  · intro es
    exact StaticSound.runEvents_stopped dbToAmp pan es _ hstop
  · simp [StaticSound.mk_sound, StaticSound.pause, StaticSound.process,
      Tween.zero, Fade.initial, Fade.set, Fade.update, Fade.finished, hst, hdt]
  · simp [StaticSound.mk_sound, StaticSound.pause, StaticSound.process,
      Tween.zero, Fade.initial, Fade.set, Fade.update, Fade.finished, hst, hdt]
  · simp [StaticSound.mk_sound, StaticSound.pause, StaticSound.resume,
      StaticSound.process, Tween.zero, Fade.initial, Fade.set, Fade.update,
      Fade.finished, hst, hdt]
  · simp [StaticSound.mk_sound, StaticSound.pause, StaticSound.resume,
      StaticSound.process, Tween.zero, Fade.initial, Fade.set, Fade.update,
      Fade.finished, hst, hdt]

/-- Witness for C8 at a concrete gated sound (three samples, start
gated on tick 2 of clock 0), with `dt = 1`. -/
theorem gated_sound_immediate_commands_witness :
    (((StaticSound.mk_sound
          ⟨1, [Frame.from_mono 1, Frame.from_mono 2, Frame.from_mono 3],
            ⟨StartTime.clockTime ⟨0, 2⟩, 0, Volume.amplitude 1, 1, 1 / 2,
              none⟩⟩).stop Tween.zero).process (fun q => q) (fun _ f => f)
        1).1.state = PlaybackState.stopped ∧
    (((StaticSound.mk_sound
          ⟨1, [Frame.from_mono 1, Frame.from_mono 2, Frame.from_mono 3],
            ⟨StartTime.clockTime ⟨0, 2⟩, 0, Volume.amplitude 1, 1, 1 / 2,
              none⟩⟩).pause Tween.zero).process (fun q => q) (fun _ f => f)
        1).1.state = PlaybackState.paused ∧
    (((((StaticSound.mk_sound
          ⟨1, [Frame.from_mono 1, Frame.from_mono 2, Frame.from_mono 3],
            ⟨StartTime.clockTime ⟨0, 2⟩, 0, Volume.amplitude 1, 1, 1 / 2,
              none⟩⟩).pause Tween.zero).process (fun q => q) (fun _ f => f)
        1).1.resume Tween.zero).process (fun q => q) (fun _ f => f)
        1).1.waitingFor = some ⟨0, 2⟩ := by
  have h := gated_sound_immediate_commands (fun q => q) (fun _ f => f)
    ⟨1, [Frame.from_mono 1, Frame.from_mono 2, Frame.from_mono 3],
      ⟨StartTime.clockTime ⟨0, 2⟩, 0, Volume.amplitude 1, 1, 1 / 2, none⟩⟩
    0 2 1 rfl (by norm_num)
  exact ⟨h.1, h.2.2.1, h.2.2.2.2.2⟩

end ClaimC8

section ClaimC2

theorem fade_update_full (f : Fade) (dt : ℚ) (hv : f.value = 1)
    (ht : f.target = 1) :
    (f.update dt).value = 1 ∧ (f.update dt).target = 1 := by
  unfold Fade.update
  split <;> simp [hv, ht]

theorem gated_process_fix (dbToAmp : ℚ → ℚ) (pan : ℚ → Frame → Frame)
    (s : StaticSound) (ct : ClockTime) (dt : ℚ)
    (hw : s.waitingFor = some ct) (hs : s.state = PlaybackState.playing)
    (hf : s.volumeFade = Fade.initial) (hdt : 0 ≤ dt) :
    s.process dbToAmp pan dt = (s, Frame.ZERO) := by
  obtain ⟨d, st, w, pos, f, v, p, r⟩ := s
  dsimp only at hw hs hf
  subst hw hs hf
  simp [StaticSound.process, Fade.update, Fade.initial, hdt]

theorem gated_tick_nonsat (s : StaticSound) (c T : Nat) (t : ClockTime)
    (hw : s.waitingFor = some ⟨c, T⟩)
    (hnot : ¬(t.clock = c ∧ T ≤ t.ticks)) :
    s.on_clock_tick t = s := by
  unfold StaticSound.on_clock_tick
  rw [hw]
  dsimp only
  rw [if_neg hnot]

theorem gated_run_fix (dbToAmp : ℚ → ℚ) (pan : ℚ → Frame → Frame)
    (c T : Nat) :
    ∀ (es : List StaticSound.Event) (s : StaticSound),
      s.waitingFor = some ⟨c, T⟩ → s.state = PlaybackState.playing →
      s.volumeFade = Fade.initial →
      (∀ e ∈ es,
        (∃ d, e = StaticSound.Event.processE d ∧ 0 ≤ d) ∨
        (∃ ct, e = StaticSound.Event.tickE ct ∧
          ¬(ct.clock = c ∧ T ≤ ct.ticks))) →
      (StaticSound.runEvents dbToAmp pan es s).1 = s ∧
      ∀ f ∈ (StaticSound.runEvents dbToAmp pan es s).2, f = Frame.ZERO := by
  intro es
  induction es with
  | nil => intro s _ _ _ _; exact ⟨rfl, by intro f hf; cases hf⟩
  | cons e rest ih =>
    intro s hw hs hf hes
    rcases hes e (List.mem_cons_self _ _) with ⟨d, rfl, hd⟩ | ⟨ct, rfl, hct⟩
    · have hp := gated_process_fix dbToAmp pan s ⟨c, T⟩ d hw hs hf hd
      have hr := ih s hw hs hf fun e he => hes e (List.mem_cons_of_mem _ he)
      simp only [StaticSound.runEvents, hp]
      refine ⟨hr.1, ?_⟩
      intro f hfm
      rcases List.mem_cons.mp hfm with hfm | hfm
      · exact hfm
      · exact hr.2 f hfm
    · have htk := gated_tick_nonsat s c T ct hw hct
      have hr := ih s hw hs hf fun e he => hes e (List.mem_cons_of_mem _ he)
      simpa only [StaticSound.runEvents, StaticSound.applyEvent, htk] using hr

theorem process_playing_step (dbToAmp : ℚ → ℚ) (pan : ℚ → Frame → Frame)
    (s : StaticSound) (dt : ℚ)
    (hw : s.waitingFor = none) (hs : s.state = PlaybackState.playing)
    (hv : s.volumeFade.value = 1) (ht : s.volumeFade.target = 1)
    (hn : s.position + s.playback_rate * dt < s.data.duration) :
    s.process dbToAmp pan dt =
      ({ s with
          volumeFade := s.volumeFade.update dt,
          position := s.position + s.playback_rate * dt },
        pan s.panning
          (s.data.frameAt s.position * s.volume.as_amplitude dbToAmp)) := by
  have hfull := fade_update_full s.volumeFade dt hv ht
  have hnn : ¬s.data.duration ≤ s.position + s.playback_rate * dt :=
    not_le.mpr hn
  obtain ⟨d, st, w, pos, f, v, p, r⟩ := s
  dsimp only at hw hs hv ht hn hnn hfull
  subst hw hs
  cases hl : d.settings.loop_start with
  | none =>
    simp [StaticSound.process, hl, hnn, hfull.1]
  | some ls =>
    simp [StaticSound.process, StaticSound.normalizePosition, hl, hnn, hfull.1]

theorem playing_run_outputs (dbToAmp : ℚ → ℚ) (pan : ℚ → Frame → Frame) :
    ∀ (n : Nat) (s : StaticSound) (dt : ℚ),
      s.waitingFor = none → s.state = PlaybackState.playing →
      s.volumeFade.value = 1 → s.volumeFade.target = 1 →
      (∀ k : Nat, k ≤ n →
        s.position + k * (s.playback_rate * dt) < s.data.duration) →
      (StaticSound.runEvents dbToAmp pan
          (List.replicate n (StaticSound.Event.processE dt)) s).2
        = (List.range n).map (fun (k : Nat) =>
            pan s.panning
              (s.data.frameAt (s.position + (k : ℚ) * (s.playback_rate * dt))
                * s.volume.as_amplitude dbToAmp)) := by
  intro n
  induction n with
  | zero => intro s dt _ _ _ _ _; rfl
  | succ n ih =>
    intro s dt hw hs hv ht hb
    have hn : s.position + s.playback_rate * dt < s.data.duration := by
      have h1 := hb 1 (by omega)
      push_cast at h1
      linarith
    have hstep := process_playing_step dbToAmp pan s dt hw hs hv ht hn
    have hfull := fade_update_full s.volumeFade dt hv ht
    rw [List.replicate_succ]
    simp only [StaticSound.runEvents, hstep]
    have hrest := ih
      { s with
          volumeFade := s.volumeFade.update dt,
          position := s.position + s.playback_rate * dt } dt
      hw hs hfull.1 hfull.2
      (by
        intro k hk
        dsimp only
        have h2 := hb (k + 1) (by omega)
        push_cast at h2 ⊢
        linarith)
    rw [hrest]
    rw [List.range_succ_eq_map, List.map_cons, List.map_map]
    congr 1
    · dsimp only
      norm_num
    · dsimp only
      congr 1
      funext k
      have harg : s.position + s.playback_rate * dt + (k : ℚ) * (s.playback_rate * dt)
          = s.position + ((k : ℚ) + 1) * (s.playback_rate * dt) := by ring
      simp only [Function.comp]
      push_cast
      rw [harg]

/-- C2: a static sound whose settings gate its start on
`ClockTime(c, T)` emits only silent frames (and is otherwise wholly
unchanged) across any sequence of process calls and tick deliveries in
which no tick of clock `c` reaches `T` — ticks of other clocks or with
earlier counts leave the gate closed; once a tick of clock `c` with
count at least `T` is observed the gate opens, and the following
process calls emit the sound's sample frames starting from the start
position. -/
theorem static_sound_waits_for_clock_start (dbToAmp : ℚ → ℚ)
    (pan : ℚ → Frame → Frame) (data : SoundData) (c T t : Nat)
    (es : List StaticSound.Event) (n : Nat) (dt : ℚ)
    (hst : data.settings.startTime = StartTime.clockTime ⟨c, T⟩)
    (hes : ∀ e ∈ es,
      (∃ d, e = StaticSound.Event.processE d ∧ 0 ≤ d) ∨
      (∃ ct, e = StaticSound.Event.tickE ct ∧ ¬(ct.clock = c ∧ T ≤ ct.ticks)))
    (hT : T ≤ t)
    (hb : ∀ k : Nat, k ≤ n →
      data.settings.start_position + k * (data.settings.playback_rate * dt)
        < data.duration) :
    (∀ f ∈ (StaticSound.runEvents dbToAmp pan es
        (StaticSound.mk_sound data)).2, f = Frame.ZERO) ∧
    (StaticSound.runEvents dbToAmp pan es (StaticSound.mk_sound data)).1
      = StaticSound.mk_sound data ∧
    ((StaticSound.mk_sound data).on_clock_tick ⟨c, t⟩).waitingFor = none ∧
    (StaticSound.runEvents dbToAmp pan
        (List.replicate n (StaticSound.Event.processE dt))
        ((StaticSound.runEvents dbToAmp pan es
            (StaticSound.mk_sound data)).1.on_clock_tick ⟨c, t⟩)).2
      = (List.range n).map (fun (k : Nat) =>
          pan data.settings.panning
            (data.frameAt (data.settings.start_position
                + (k : ℚ) * (data.settings.playback_rate * dt))
              * data.settings.volume.as_amplitude dbToAmp)) := by
  have hwmk : (StaticSound.mk_sound data).waitingFor = some ⟨c, T⟩ := by
    simp [StaticSound.mk_sound, hst]
  have hrun := gated_run_fix dbToAmp pan c T es (StaticSound.mk_sound data)
    hwmk rfl rfl hes
  have htick : ((StaticSound.mk_sound data).on_clock_tick ⟨c, t⟩)
      = { StaticSound.mk_sound data with waitingFor := none } := by
    unfold StaticSound.on_clock_tick
    rw [hwmk]
    dsimp only
    rw [if_pos ⟨rfl, hT⟩]
  refine ⟨hrun.2, hrun.1, ?_, ?_⟩
  · rw [htick]
  · rw [hrun.1, htick]
    exact playing_run_outputs dbToAmp pan n _ dt rfl rfl rfl rfl hb

/-- Witness for C2 at the spec's literal scenario: samples 1,2,3 at
sample rate 1, start gated on tick 2 of clock 0; two process calls and
ticks of clock 0 to 1 and of clock 1 to 2 leave the gate closed; after
clock 0 reaches tick 2, three process calls at `dt = 1`. -/
theorem static_sound_waits_for_clock_start_witness :
    (∀ f ∈ (StaticSound.runEvents (fun q => q) (fun _ f => f)
        [StaticSound.Event.processE 1, StaticSound.Event.tickE ⟨0, 1⟩,
          StaticSound.Event.processE 1, StaticSound.Event.tickE ⟨1, 2⟩]
        (StaticSound.mk_sound
          ⟨1, [Frame.from_mono 1, Frame.from_mono 2, Frame.from_mono 3, Frame.from_mono 4],
            ⟨StartTime.clockTime ⟨0, 2⟩, 0, Volume.amplitude 1, 1, 1 / 2,
              none⟩⟩)).2, f = Frame.ZERO) ∧
    (StaticSound.runEvents (fun q => q) (fun _ f => f)
        (List.replicate 3 (StaticSound.Event.processE 1))
        ((StaticSound.runEvents (fun q => q) (fun _ f => f)
            [StaticSound.Event.processE 1, StaticSound.Event.tickE ⟨0, 1⟩,
              StaticSound.Event.processE 1, StaticSound.Event.tickE ⟨1, 2⟩]
            (StaticSound.mk_sound
              ⟨1, [Frame.from_mono 1, Frame.from_mono 2, Frame.from_mono 3, Frame.from_mono 4],
                ⟨StartTime.clockTime ⟨0, 2⟩, 0, Volume.amplitude 1, 1, 1 / 2,
                  none⟩⟩)).1.on_clock_tick ⟨0, 2⟩)).2
      = [Frame.from_mono 1, Frame.from_mono 2, Frame.from_mono 3] := by
  have h := static_sound_waits_for_clock_start (fun q => q) (fun _ f => f)
    ⟨1, [Frame.from_mono 1, Frame.from_mono 2, Frame.from_mono 3, Frame.from_mono 4],
      ⟨StartTime.clockTime ⟨0, 2⟩, 0, Volume.amplitude 1, 1, 1 / 2, none⟩⟩
    0 2 2
    [StaticSound.Event.processE 1, StaticSound.Event.tickE ⟨0, 1⟩,
      StaticSound.Event.processE 1, StaticSound.Event.tickE ⟨1, 2⟩]
    3 1 rfl
    (by
      intro e he
      fin_cases he
      · exact Or.inl ⟨1, rfl, by norm_num⟩
      · exact Or.inr ⟨⟨0, 1⟩, rfl, by decide⟩
      · exact Or.inl ⟨1, rfl, by norm_num⟩
      · exact Or.inr ⟨⟨1, 2⟩, rfl, by decide⟩)
    (le_refl 2)
    (by
      intro k hk
      interval_cases k <;>
        norm_num [SoundData.duration])
  refine ⟨h.1, ?_⟩
  rw [h.2.2.2]
  norm_num [SoundData.frameAt, List.range_succ]
  refine ⟨?_, ?_, ?_⟩ <;> norm_num [List.getD, Frame.from_mono, Frame.mul_def,
    Volume.as_amplitude]

end ClaimC2

end Kira
